import Mathlib

/-!
Verification of the transaction-lifecycle engine of this repository against
its natural-language specification.

The embedded sources are:
* `FileAppendTransaction` (chunked file appends: `freezeWith`, `executeAll`,
  `_makeTransactionData`, the payload-mutating setters);
* the v1 `Transaction` class in `Transaction.ts` (construction from a
  decoded body, `fromBytes`/`toBytes`/`toProto`, `sign`/`signWith`,
  `_waitForReceipt` receipt polling);
* `errors.ts` (`HederaError` carrying a response code).

Collaborators that are not among the sources (the generated protobuf
codecs, the base transaction class of the v2 hierarchy, the numeric
response codes) are modelled from the specification and say so in their
doc comments.
-/

deriving instance DecidableEq for Except

/-- EntityId: a shard/realm/number triple naming a network entity
(spec section 3; `FileId`, `AccountId` in the sources). -/
structure EntityId where
  shard : Nat
  realm : Nat
  num : Nat
  deriving DecidableEq

/-- Timestamp: a (seconds, nanoseconds) pair for an absolute instant
(spec section 3; `Timestamp.js`).  `freezeWith` derives chunk identities by
adding a whole-second offset to `seconds` and keeping `nanos`. -/
structure Timestamp where
  seconds : Nat
  nanos : Nat
  deriving DecidableEq

/-- TransactionId of the v2 hierarchy: payer account plus valid-start
timestamp (`TransactionId.js`, spec section 3 TransactionIdentity). -/
structure TransactionId where
  accountId : EntityId
  validStart : Timestamp
  deriving DecidableEq

/-- The error taxonomy of the engine (spec section 7 plus the concrete
throw sites in the sources).  `hederaError` is `HederaError` of
`errors.ts`, carrying the numeric response code. -/
inductive SdkError where
  | payloadTooLarge
  | transactionIdNotSet
  | alreadyFrozen
  | notFrozen
  | consensusTimeout
  | hederaError (code : Nat)
  | missingField
  | missingBody
  | unsupportedBodyCase (tag : Nat)
  | decodeFailed
  deriving DecidableEq

/-- Modelled from the spec: `CHUNK_SIZE` is imported from the base
transaction module, which is not among the sources; the scenario in spec
section 8 (payload 6000, chunk size 4096, two chunks) fixes it at 4096. -/
def CHUNK_SIZE : Nat := 4096

/-- Chunk count computed by `freezeWith` (part_000 lines 208 to 210):
`Math.floor((length + (CHUNK_SIZE - 1)) / CHUNK_SIZE)`, here parametric in
the chunk size `C`. -/
def chunkCount (len C : Nat) : Nat := (len + (C - 1)) / C

/-- The chunking decision of `freezeWith` for non-null contents
(part_000 lines 200 to 216): contents shorter than the chunk size return
early, leaving the single transaction group built by the base class; a
longer payload is split into `chunkCount` groups unless that exceeds
`maxChunks`, in which case freezing throws.  The returned number is the
number of frozen chunk groups. -/
def freezeChunkCheck (len maxChunks C : Nat) : Except SdkError Nat :=
  if len < C then Except.ok 1
  else
    let chunks := chunkCount len C
    if chunks > maxChunks then Except.error SdkError.payloadTooLarge
    else Except.ok chunks

/-- Byte slice taken by `_makeTransactionData` (part_000 lines 321 to 335):
`endIndex` is `startIndex + C` clamped to the content length, and the
chunk is `contents.subarray(startIndex, endIndex)`. -/
def makeTransactionDataContents (contents : List Nat) (startIndex C : Nat) : List Nat :=
  let length := contents.length
  let endIndex := if startIndex + C > length then length else startIndex + C
  (contents.drop startIndex).take (endIndex - startIndex)

/-- Successor chunk id built at part_000 lines 233 to 239: same payer,
valid-start seconds advanced by 10, nanoseconds unchanged. -/
def nextChunkTransactionId (tid : TransactionId) : TransactionId :=
  { accountId := tid.accountId,
    validStart := { seconds := tid.validStart.seconds + 10, nanos := tid.validStart.nanos } }

/-- Ids pushed by the chunk loop of `freezeWith` (part_000 lines 223 to
240): one push per chunk, starting from the currently assigned id and
advancing by `nextChunkTransactionId` after each chunk.  This is also the
sequence of values `_transactionId` holds when `_makeTransaction` embeds
the id of each chunk. -/
def freezeLoopIds (next : TransactionId) : Nat → List TransactionId
  | 0 => []
  | n + 1 => next :: freezeLoopIds (nextChunkTransactionId next) n

/-- Contents of `_transactionIds` after `freezeWith` on a chunked payload:
line 198 seeds the list with the already assigned id, and the loop then
pushes the id of every chunk, starting again with the assigned id. -/
def transactionIdsAfterFreeze (init : TransactionId) (chunks : Nat) : List TransactionId :=
  init :: freezeLoopIds init chunks

/-- Ids embedded in the frozen wire bytes of the chunks, chunk by chunk
(the value of `_transactionId` while `_makeTransaction` runs for each
chunk of the loop). -/
def embeddedChunkIds (init : TransactionId) (chunks : Nat) : List TransactionId :=
  freezeLoopIds init chunks

/-- Ids assigned to the transaction per chunk group by `executeAll`
(part_000 line 287): entry `_nextGroupIndex` of `_transactionIds` for the
groups `0` to `transactionCount - 1`, where `transactionCount` is the
number of chunk groups. -/
def executeAllAssignedIds (init : TransactionId) (chunks : Nat) : List TransactionId :=
  (transactionIdsAfterFreeze init chunks).take chunks

/-- Observable events of the `executeAll` loop: a chunk's request being
dispatched (`super.execute`, part_000 line 288) and its receipt being
confirmed (`response.getReceipt`, line 289). -/
inductive ChunkEvent where
  | dispatched (i : Nat)
  | receiptConfirmed (i : Nat)
  deriving DecidableEq

/-- The chunk loop of `executeAll` (part_000 lines 282 to 293) run from
group index `i` with `rem` groups remaining, against oracles giving each
group's dispatch outcome and receipt outcome.  A JavaScript `throw` from
either `await` aborts the loop and rejects the whole call with that error:
the locally collected `responses` array is discarded.  The first component
is the trace of network events, the second the value `executeAll` settles
with. -/
def executeAllFrom {R : Type} (disp : Nat → Except SdkError R)
    (rcpt : Nat → Except SdkError Unit) :
    Nat → Nat → List ChunkEvent × Except SdkError (List R)
  | _, 0 => ([], Except.ok [])
  | i, rem + 1 =>
    match disp i with
    | Except.error e => ([ChunkEvent.dispatched i], Except.error e)
    | Except.ok r =>
      match rcpt i with
      | Except.error e => ([ChunkEvent.dispatched i], Except.error e)
      | Except.ok _ =>
        let rest := executeAllFrom disp rcpt (i + 1) rem
        (ChunkEvent.dispatched i :: ChunkEvent.receiptConfirmed i :: rest.1,
          match rest.2 with
          | Except.ok rs => Except.ok (r :: rs)
          | Except.error e => Except.error e)

/-- Reading of `executeAll` following the specification's words, for the
refinement comparison of claim C2 only: spec sections 4.5 and 7 say the
call "returns the ordered list of per-chunk outcomes; aborts (returns
already-collected prefix + error) on the first chunk failure", so this
version delivers the confirmed outcomes together with the optional
triggering error. -/
def executeAllPerSpec {R : Type} (disp : Nat → Except SdkError R)
    (rcpt : Nat → Except SdkError Unit) :
    Nat → Nat → List R × Option SdkError
  | _, 0 => ([], none)
  | i, rem + 1 =>
    match disp i with
    | Except.error e => ([], some e)
    | Except.ok r =>
      match rcpt i with
      | Except.error e => ([], some e)
      | Except.ok _ =>
        let rest := executeAllPerSpec disp rcpt (i + 1) rem
        (r :: rest.1, rest.2)

/-- Outcome list actually delivered to the awaiting caller: a fulfilled
call delivers its list, a rejected call delivers no outcomes at all. -/
def deliveredOutcomes {R : Type} : Except SdkError (List R) → List R
  | Except.ok rs => rs
  | Except.error _ => []

/-- State of a `FileAppendTransaction` (part_000 constructor lines 38 to
76 plus the base-class fields it manipulates): frozen flag, payload
fields, the assigned id, the `_transactionIds` list and the number of
frozen chunk groups (`_transactions.length / _nodeIds.length`). -/
structure FileAppendState where
  frozen : Bool
  fileId : Option EntityId
  contents : Option (List Nat)
  maxChunks : Nat
  transactionId : Option TransactionId
  transactionIds : List TransactionId
  groupCount : Nat
  deriving DecidableEq

/-- Modelled from the spec: `_requireNotFrozen` lives in the base
transaction class, which is not among the sources; spec sections 3 and 8
say mutation after freezing fails and freezing twice fails with
`AlreadyFrozen`. -/
def requireNotFrozen (tx : FileAppendState) : Except SdkError Unit :=
  if tx.frozen then Except.error SdkError.alreadyFrozen else Except.ok ()

/-- `setFileId` (part_000 lines 125 to 131): guarded by
`_requireNotFrozen`, then stores the id. -/
def setFileId (tx : FileAppendState) (fid : EntityId) : Except SdkError FileAppendState :=
  match requireNotFrozen tx with
  | Except.error e => Except.error e
  | Except.ok _ => Except.ok { tx with fileId := some fid }

/-- `setContents` (part_000 lines 156 to 162): guarded by
`_requireNotFrozen`, then stores the bytes. -/
def setContents (tx : FileAppendState) (c : List Nat) : Except SdkError FileAppendState :=
  match requireNotFrozen tx with
  | Except.error e => Except.error e
  | Except.ok _ => Except.ok { tx with contents := some c }

/-- `setMaxChunks` (part_000 lines 175 to 179): guarded by
`_requireNotFrozen`, then stores the bound. -/
def setMaxChunks (tx : FileAppendState) (m : Nat) : Except SdkError FileAppendState :=
  match requireNotFrozen tx with
  | Except.error e => Except.error e
  | Except.ok _ => Except.ok { tx with maxChunks := m }

/-- Client data `freezeWith`/`executeAll` consult: the default transaction
id the operator can supply and the number of selected nodes. -/
structure ClientInfo where
  operatorTransactionId : Option TransactionId
  nodeCount : Nat
  deriving DecidableEq

/-- `freezeWith` (part_000 lines 191 to 246).  The base-class part
(`super.freezeWith`) is not among the sources and is modelled from the
spec: it marks the transaction frozen, assigns the default id from the
client when none is set, and builds one transaction group.  The rest
follows the source: throw when no id is set, seed `_transactionIds` with
the assigned id, return early on null or short contents, fail on too many
chunks, otherwise rebuild `_transactions` with one group per chunk while
pushing every chunk id. -/
def freezeWithModel (client : ClientInfo) (tx : FileAppendState) :
    Except SdkError FileAppendState :=
  let assigned := match tx.transactionId with
    | some t => some t
    | none => client.operatorTransactionId
  match assigned with
  | none => Except.error SdkError.transactionIdNotSet
  | some init =>
    let tx1 : FileAppendState :=
      { tx with frozen := true, transactionId := some init,
                transactionIds := [init], groupCount := 1 }
    match tx1.contents with
    | none => Except.ok tx1
    | some c =>
      if c.length < CHUNK_SIZE then Except.ok tx1
      else
        let chunks := chunkCount c.length CHUNK_SIZE
        if chunks > tx1.maxChunks then Except.error SdkError.payloadTooLarge
        else Except.ok { tx1 with
          transactionIds := transactionIdsAfterFreeze init chunks,
          groupCount := chunks }

/-- `executeAll` (part_000 lines 260 to 294): an unfrozen transaction is
first frozen with the client (lines 261 to 263) rather than rejected; the
operator-signing step (lines 268 to 276) only adds signatures and is
omitted here; then the chunk loop runs over `transactionCount` groups.
The value delivered to the caller is the settled value of the loop. -/
def executeAllModel {R : Type} (client : ClientInfo)
    (disp : Nat → Except SdkError R) (rcpt : Nat → Except SdkError Unit)
    (tx : FileAppendState) : Except SdkError (List R) :=
  match (if tx.frozen then Except.ok tx else freezeWithModel client tx :
      Except SdkError FileAppendState) with
  | Except.error e => Except.error e
  | Except.ok tx1 => (executeAllFrom disp rcpt 0 tx1.groupCount).2

/-- Response code `OK`.  Modelled from the spec: the generated
`ResponseCode_pb` is not among the sources; these are the protocol's
numeric values. -/
def OK_CODE : Nat := 0

/-- Response code `UNKNOWN`, see `OK_CODE`. -/
def UNKNOWN_CODE : Nat := 21

/-- Response code `SUCCESS`, see `OK_CODE`. -/
def SUCCESS_CODE : Nat := 22

/-- `receiptInitialDelayMs` (Transaction.ts line 39): the fixed sleep
before the first poll; it does not affect poll counts or outcomes. -/
def receiptInitialDelayMs : Nat := 1000

/-- `receiptRetryDelayMs` (Transaction.ts line 40): the backoff base. -/
def receiptRetryDelayMs : Nat := 500

/-- Modelled from the spec: `timestampToMs` of `Timestamp.ts` is not among
the sources; a (seconds, nanos) instant in milliseconds. -/
def timestampToMs (t : Timestamp) : Int := t.seconds * 1000 + t.nanos / 1000000

/-- Polling deadline computed by `_waitForReceipt` (Transaction.ts lines
145 to 147): the valid-start instant plus the constant 120000
milliseconds, with the comment "set timeout at max valid duration".  The
transaction's configured `_validDurationSeconds` is not consulted. -/
def waitForReceiptDeadline (validStart : Timestamp) : Int :=
  timestampToMs validStart + 120000

/-- Backoff computed at Transaction.ts lines 159 and 160:
`Math.floor(receiptRetryDelayMs * Math.random() * (2 ** attempt - 1))`,
with the value of `Math.random()` at each attempt supplied by `rand`. -/
def backoffDelayMs (rand : Nat → ℚ) (attempt : Nat) : Int :=
  ⌊(receiptRetryDelayMs : ℚ) * rand attempt * (2 ^ attempt - 1)⌋

/-- The polling loop of `_waitForReceipt` (Transaction.ts lines 153 to
174), fuel-bounded.  `polls` gives the receipt status of each poll,
`nowAt` the value `Date.now()` reads in that iteration.  A pending status
(`UNKNOWN` or `OK`) computes the backoff and times out when `now + delay`
exceeds the deadline; any other non-`SUCCESS` status throws `HederaError`
with that code; `SUCCESS` returns the receipt (represented by its status).
The result pairs the number of polls performed with the settled value;
`none` means the fuel ran out before the loop exited. -/
def waitForReceiptLoop (polls : Nat → Nat) (rand : Nat → ℚ) (nowAt : Nat → Int)
    (validUntilMs : Int) : Nat → Nat → Option (Nat × Except SdkError Nat)
  | 0, _ => none
  | fuel + 1, attempt =>
    let status := polls attempt
    if status = UNKNOWN_CODE ∨ status = OK_CODE then
      let delay := backoffDelayMs rand attempt
      if nowAt attempt + delay > validUntilMs then
        some (attempt + 1, Except.error SdkError.consensusTimeout)
      else
        waitForReceiptLoop polls rand nowAt validUntilMs fuel (attempt + 1)
    else if status ≠ SUCCESS_CODE then
      some (attempt + 1, Except.error (SdkError.hederaError status))
    else
      some (attempt + 1, Except.ok status)

/-- Operation tag of a decoded transaction body (the `data` oneof of the
protobuf `TransactionBody`): the seventeen cases recognized by
`methodFromTxn` (Transaction.ts lines 197 to 238), the not-set case, and
a catch-all for any other tag (the `default` branch). -/
inductive DataCase where
  | contractCall
  | contractCreateInstance
  | contractUpdateInstance
  | contractDeleteInstance
  | cryptoAddClaim
  | cryptoCreateAccount
  | cryptoDelete
  | cryptoDeleteClaim
  | cryptoTransfer
  | cryptoUpdateAccount
  | fileAppend
  | fileCreate
  | fileDelete
  | fileUpdate
  | systemDelete
  | systemUndelete
  | freeze
  | dataNotSet
  | unrecognized (tag : Nat)
  deriving DecidableEq

/-- Dispatch-method selectors returned by `methodFromTxn`, one per
recognized operation tag. -/
inductive RpcMethod where
  | contractCallMethod
  | createContract
  | updateContract
  | deleteContract
  | addClaim
  | createAccount
  | cryptoDelete
  | deleteClaim
  | cryptoTransfer
  | updateAccount
  | appendContent
  | createFile
  | deleteFile
  | updateFile
  | systemDelete
  | systemUndelete
  | freeze
  deriving DecidableEq

/-- `methodFromTxn` (Transaction.ts lines 197 to 238): maps the decoded
body's data case to the dispatch method; throws on `DATA_NOT_SET` and on
an unsupported case. -/
def methodFromTxn : DataCase → Except SdkError RpcMethod
  | DataCase.contractCall => Except.ok RpcMethod.contractCallMethod
  | DataCase.contractCreateInstance => Except.ok RpcMethod.createContract
  | DataCase.contractUpdateInstance => Except.ok RpcMethod.updateContract
  | DataCase.contractDeleteInstance => Except.ok RpcMethod.deleteContract
  | DataCase.cryptoAddClaim => Except.ok RpcMethod.addClaim
  | DataCase.cryptoCreateAccount => Except.ok RpcMethod.createAccount
  | DataCase.cryptoDelete => Except.ok RpcMethod.cryptoDelete
  | DataCase.cryptoDeleteClaim => Except.ok RpcMethod.deleteClaim
  | DataCase.cryptoTransfer => Except.ok RpcMethod.cryptoTransfer
  | DataCase.cryptoUpdateAccount => Except.ok RpcMethod.updateAccount
  | DataCase.fileAppend => Except.ok RpcMethod.appendContent
  | DataCase.fileCreate => Except.ok RpcMethod.createFile
  | DataCase.fileDelete => Except.ok RpcMethod.deleteFile
  | DataCase.fileUpdate => Except.ok RpcMethod.updateFile
  | DataCase.systemDelete => Except.ok RpcMethod.systemDelete
  | DataCase.systemUndelete => Except.ok RpcMethod.systemUndelete
  | DataCase.freeze => Except.ok RpcMethod.freeze
  | DataCase.dataNotSet => Except.error SdkError.missingBody
  | DataCase.unrecognized tag => Except.error (SdkError.unsupportedBodyCase tag)

/-- Protobuf `TransactionID` of the v1 hierarchy: payer account and
valid-start timestamp, both optional on the wire. -/
structure ProtoTransactionID where
  accountID : Option EntityId
  transactionValidStart : Option Timestamp
  deriving DecidableEq

/-- Decoded protobuf `TransactionBody`: the fields the v1 `Transaction`
reads (node account, transaction id, valid duration) plus the operation
tag. -/
structure TransactionBody where
  nodeAccountID : Option EntityId
  transactionID : Option ProtoTransactionID
  transactionValidDuration : Option Nat
  dataCase : DataCase
  deriving DecidableEq

/-- A (public-key prefix, ed25519 signature) pair as built by
`_addSignature` (Transaction.ts lines 84 to 94). -/
structure SignaturePair where
  pubKeyPrefixBytes : List Nat
  ed25519Sig : List Nat
  deriving DecidableEq

/-- The wire message `Transaction_` wrapped by the v1 `Transaction`: the
frozen body bytes plus the signature map. -/
structure TransactionWire where
  bodyBytes : List Nat
  sigMap : List SignaturePair
  deriving DecidableEq

/-- Empty wire message, the default a missing signature map falls back
to. -/
def emptyWire : TransactionWire := { bodyBytes := [], sigMap := [] }

/-- Modelled from the spec: the generated protobuf codecs
(`serializeBinary`/`deserializeBinary`) are not among the sources; spec
section 6 requires a self-describing binary envelope, modelled here as an
injective length-prefixed encoding with a total decoder.  A length
prefix followed by the raw elements. -/
def encodeSized (bs : List Nat) : List Nat := bs.length :: bs

/-- Decoder for `encodeSized`: reads the length prefix and splits. -/
def decodeSized : List Nat → Option (List Nat × List Nat)
  | [] => none
  | n :: rest =>
    if n ≤ rest.length then some (rest.take n, rest.drop n) else none

/-- Presence-tagged encoding of an optional field. -/
def encodeOptionField {α : Type} (f : α → List Nat) : Option α → List Nat
  | none => [0]
  | some a => 1 :: f a

/-- Decoder for `encodeOptionField`. -/
def decodeOptionField {α : Type} (f : List Nat → Option (α × List Nat)) :
    List Nat → Option (Option α × List Nat)
  | 0 :: rest => some (none, rest)
  | 1 :: rest =>
    match f rest with
    | some (a, r) => some (some a, r)
    | none => none
  | _ => none

/-- Fixed-width encoding of an `EntityId`. -/
def encodeEntityId (e : EntityId) : List Nat := [e.shard, e.realm, e.num]

/-- Decoder for `encodeEntityId`. -/
def decodeEntityId : List Nat → Option (EntityId × List Nat)
  | s :: r :: n :: rest => some ({ shard := s, realm := r, num := n }, rest)
  | _ => none

/-- Fixed-width encoding of a `Timestamp`. -/
def encodeTimestamp (t : Timestamp) : List Nat := [t.seconds, t.nanos]

/-- Decoder for `encodeTimestamp`. -/
def decodeTimestamp : List Nat → Option (Timestamp × List Nat)
  | s :: n :: rest => some ({ seconds := s, nanos := n }, rest)
  | _ => none

/-- Encoding of a protobuf `TransactionID`. -/
def encodeProtoTxnId (tid : ProtoTransactionID) : List Nat :=
  encodeOptionField encodeEntityId tid.accountID ++
    encodeOptionField encodeTimestamp tid.transactionValidStart

/-- Decoder for `encodeProtoTxnId`. -/
def decodeProtoTxnId (l : List Nat) : Option (ProtoTransactionID × List Nat) :=
  match decodeOptionField decodeEntityId l with
  | none => none
  | some (acc, l1) =>
    match decodeOptionField decodeTimestamp l1 with
    | none => none
    | some (ts, l2) => some ({ accountID := acc, transactionValidStart := ts }, l2)

/-- Single-slot encoding of a numeric field. -/
def encodeNatField (n : Nat) : List Nat := [n]

/-- Decoder for `encodeNatField`. -/
def decodeNatField : List Nat → Option (Nat × List Nat)
  | n :: rest => some (n, rest)
  | [] => none

/-- Injective numeric tag of a data case; unknown tags start at 18. -/
def dataCaseTag : DataCase → Nat
  | DataCase.dataNotSet => 0
  | DataCase.contractCall => 1
  | DataCase.contractCreateInstance => 2
  | DataCase.contractUpdateInstance => 3
  | DataCase.contractDeleteInstance => 4
  | DataCase.cryptoAddClaim => 5
  | DataCase.cryptoCreateAccount => 6
  | DataCase.cryptoDelete => 7
  | DataCase.cryptoDeleteClaim => 8
  | DataCase.cryptoTransfer => 9
  | DataCase.cryptoUpdateAccount => 10
  | DataCase.fileAppend => 11
  | DataCase.fileCreate => 12
  | DataCase.fileDelete => 13
  | DataCase.fileUpdate => 14
  | DataCase.systemDelete => 15
  | DataCase.systemUndelete => 16
  | DataCase.freeze => 17
  | DataCase.unrecognized tag => tag + 18

/-- Inverse of `dataCaseTag`. -/
def dataCaseOfTag : Nat → DataCase
  | 0 => DataCase.dataNotSet
  | 1 => DataCase.contractCall
  | 2 => DataCase.contractCreateInstance
  | 3 => DataCase.contractUpdateInstance
  | 4 => DataCase.contractDeleteInstance
  | 5 => DataCase.cryptoAddClaim
  | 6 => DataCase.cryptoCreateAccount
  | 7 => DataCase.cryptoDelete
  | 8 => DataCase.cryptoDeleteClaim
  | 9 => DataCase.cryptoTransfer
  | 10 => DataCase.cryptoUpdateAccount
  | 11 => DataCase.fileAppend
  | 12 => DataCase.fileCreate
  | 13 => DataCase.fileDelete
  | 14 => DataCase.fileUpdate
  | 15 => DataCase.systemDelete
  | 16 => DataCase.systemUndelete
  | 17 => DataCase.freeze
  | n + 18 => DataCase.unrecognized n

/-- Encoding of a `TransactionBody` (`TransactionBody.serializeBinary`). -/
def encodeBody (b : TransactionBody) : List Nat :=
  encodeOptionField encodeEntityId b.nodeAccountID ++
    encodeOptionField encodeProtoTxnId b.transactionID ++
      encodeOptionField encodeNatField b.transactionValidDuration ++
        [dataCaseTag b.dataCase]

/-- Decoder for `encodeBody` (`TransactionBody.deserializeBinary`): the
whole input must be consumed. -/
def decodeBody (l : List Nat) : Option TransactionBody :=
  match decodeOptionField decodeEntityId l with
  | none => none
  | some (node, l1) =>
    match decodeOptionField decodeProtoTxnId l1 with
    | none => none
    | some (tid, l2) =>
      match decodeOptionField decodeNatField l2 with
      | none => none
      | some (dur, l3) =>
        match l3 with
        | [tag] => some { nodeAccountID := node, transactionID := tid,
                          transactionValidDuration := dur,
                          dataCase := dataCaseOfTag tag }
        | _ => none

/-- Encoding of a signature pair: both byte fields length-prefixed. -/
def encodeSigPair (p : SignaturePair) : List Nat :=
  encodeSized p.pubKeyPrefixBytes ++ encodeSized p.ed25519Sig

/-- Decoder for a count of signature pairs. -/
def decodeSigPairs : Nat → List Nat → Option (List SignaturePair × List Nat)
  | 0, rest => some ([], rest)
  | n + 1, rest =>
    match decodeSized rest with
    | none => none
    | some (pk, r1) =>
      match decodeSized r1 with
      | none => none
      | some (sig, r2) =>
        match decodeSigPairs n r2 with
        | none => none
        | some (ps, r3) =>
          some ({ pubKeyPrefixBytes := pk, ed25519Sig := sig } :: ps, r3)

/-- Encoding of the wire message (`Transaction_.serializeBinary`): the
length-prefixed body bytes, then the count of signature pairs followed by
the pairs. -/
def encodeWire (w : TransactionWire) : List Nat :=
  encodeSized w.bodyBytes ++ w.sigMap.length :: (w.sigMap.map encodeSigPair).flatten

/-- Decoder for `encodeWire` (`Transaction_.deserializeBinary`): the whole
input must be consumed. -/
def decodeWire (l : List Nat) : Option TransactionWire :=
  match decodeSized l with
  | none => none
  | some (bb, l1) =>
    match l1 with
    | [] => none
    | n :: l2 =>
      match decodeSigPairs n l2 with
      | some (sm, []) => some { bodyBytes := bb, sigMap := sm }
      | _ => none

/-- The v1 `Transaction` (Transaction.ts lines 42 to 47): the selected
node, the wrapped wire message, the transaction id and valid duration read
out of the body in the constructor (lines 56 to 67), and the dispatch
method. -/
structure Transaction where
  node : EntityId
  inner : TransactionWire
  txnId : ProtoTransactionID
  validDurationSeconds : Nat
  method : RpcMethod
  deriving DecidableEq

/-- `toBytes` (Transaction.ts lines 181 to 183):
`this._inner.serializeBinary()`. -/
def toBytesModel (tx : Transaction) : List Nat := encodeWire tx.inner

/-- `fromBytes` (Transaction.ts lines 69 to 78): deserialize the wire
message, deserialize the body out of its body bytes, require the node
account id, select the dispatch method from the data case, and run the
constructor, which requires the transaction id and the valid duration. -/
def fromBytesModel (bytes : List Nat) : Except SdkError Transaction :=
  match decodeWire bytes with
  | none => Except.error SdkError.decodeFailed
  | some inner =>
    match decodeBody inner.bodyBytes with
    | none => Except.error SdkError.decodeFailed
    | some body =>
      match body.nodeAccountID with
      | none => Except.error SdkError.missingField
      | some nodeId =>
        match methodFromTxn body.dataCase with
        | Except.error e => Except.error e
        | Except.ok m =>
          match body.transactionID, body.transactionValidDuration with
          | some tid, some dur =>
            Except.ok { node := nodeId, inner := inner, txnId := tid,
                        validDurationSeconds := dur, method := m }
          | _, _ => Except.error SdkError.missingField

/-- `_addSignature` (Transaction.ts lines 84 to 94): build a signature
pair from the public key and signature, fetch the signature map (or a
fresh one), append the pair, store the map back.  Nothing else of the
transaction is touched. -/
def addSignatureModel (tx : Transaction) (p : SignaturePair) : Transaction :=
  { tx with inner := { tx.inner with sigMap := tx.inner.sigMap ++ [p] } }

/-- `sign` and `signWith` (Transaction.ts lines 96 to 118): obtain a
signature over the body bytes from the (possibly asynchronous) signer and
append it with the public key via `_addSignature`. -/
def signModel (tx : Transaction) (signer : List Nat → List Nat)
    (pubKey : List Nat) : Transaction :=
  addSignatureModel tx
    { pubKeyPrefixBytes := pubKey, ed25519Sig := signer tx.inner.bodyBytes }

/-- Heap of mutable wire-message objects, for the aliasing claim about
`toProto`: cells hold message values, references are cell indices. -/
abbrev WireHeap : Type := List TransactionWire

/-- Value of the message object a reference points at. -/
def heapValueAt (h : WireHeap) (r : Nat) : TransactionWire :=
  List.getD h r emptyWire

/-- Destructive update of the message object a reference points at (a
caller mutating a message in place). -/
def heapMutate (h : WireHeap) (r : Nat) (v : TransactionWire) : WireHeap :=
  List.set h r v

/-- `toProto` (Transaction.ts lines 177 to 179):
`Message.cloneMessage(this._inner)`.  `cloneMessage` is the google
protobuf library's deep copy, modelled from its documented contract: it
allocates a fresh message object with the same value and returns a
reference to it. -/
def toProtoModel (h : WireHeap) (r : Nat) : WireHeap × Nat :=
  (h ++ [heapValueAt h r], h.length)

/-- `toBytes` against the heap: serialize the message the transaction's
`_inner` reference points at. -/
def toBytesHeap (h : WireHeap) (r : Nat) : List Nat := encodeWire (heapValueAt h r)

/-- Concrete decoded body used by the round-trip witness: node `0.0.3`,
payer `0.0.2`, valid start `(5 s, 7 ns)`, validity window 120 s, a
crypto-transfer operation. -/
def c8Body : TransactionBody :=
  { nodeAccountID := some { shard := 0, realm := 0, num := 3 },
    transactionID := some { accountID := some { shard := 0, realm := 0, num := 2 },
                            transactionValidStart := some { seconds := 5, nanos := 7 } },
    transactionValidDuration := some 120,
    dataCase := DataCase.cryptoTransfer }

/-- Concrete frozen transaction wrapping `c8Body` with one signature
pair, used by the round-trip witness. -/
def c8Tx : Transaction :=
  { node := { shard := 0, realm := 0, num := 3 },
    inner := { bodyBytes := encodeBody c8Body,
               sigMap := [{ pubKeyPrefixBytes := [9], ed25519Sig := [8, 8] }] },
    txnId := { accountID := some { shard := 0, realm := 0, num := 2 },
               transactionValidStart := some { seconds := 5, nanos := 7 } },
    validDurationSeconds := 120,
    method := RpcMethod.cryptoTransfer }

/-- Ceiling property of the chunk-count formula, upper half: all bytes fit
into `chunkCount len C` chunks of size `C`. -/
theorem chunkCount_mul_ge (len C : Nat) (hC : 0 < C) : len ≤ chunkCount len C * C := by
  have h2 := Nat.div_add_mod (len + (C - 1)) C
  have h3 : (len + (C - 1)) % C < C := Nat.mod_lt _ hC
  have h4 : C * ((len + (C - 1)) / C) = ((len + (C - 1)) / C) * C := Nat.mul_comm _ _
  unfold chunkCount
  omega

/-- Ceiling property of the chunk-count formula, lower half: no smaller
number of chunks of size `C` can hold the bytes. -/
theorem chunkCount_le_of_le_mul (len C m : Nat) (hC : 0 < C) (hm : len ≤ m * C) :
    chunkCount len C ≤ m := by
  have h1 : len + (C - 1) ≤ (C - 1) + C * m := by
    have := Nat.mul_comm m C
    omega
  unfold chunkCount
  calc (len + (C - 1)) / C ≤ ((C - 1) + C * m) / C := Nat.div_le_div_right h1
    _ = (C - 1) / C + m := Nat.add_mul_div_left _ _ hC
    _ = m := by rw [Nat.div_eq_of_lt (by omega)]; omega

/-- The clamped slice of `_makeTransactionData` is a plain `take` of the
dropped contents: the clamp and the end of the list coincide. -/
theorem makeTransactionDataContents_eq_take (l : List Nat) (s C : Nat) :
    makeTransactionDataContents l s C = (l.drop s).take C := by
  unfold makeTransactionDataContents
  by_cases h : s + C > l.length
  · simp only [if_pos h]
    rw [List.take_of_length_le (by simp only [List.length_drop]; omega),
      List.take_of_length_le (by simp only [List.length_drop]; omega)]
  · simp only [if_neg h]
    congr 1
    omega

/-- Concatenating the first `n` size-`C` slices of a list yields its first
`n * C` elements. -/
theorem flatten_chunk_slices (C : Nat) (l : List Nat) (n : Nat) :
    ((List.range n).map (fun i => (l.drop (i * C)).take C)).flatten = l.take (n * C) := by
  induction n with
  | zero => simp
  | succ n ih =>
      rw [List.range_succ, List.map_append, List.flatten_append, ih]
      simp [Nat.succ_mul, List.take_add]

/-- Claim C1: the claim is right and the code has a slip.  For a payload
of 6000 bytes (two chunks of 4096) and the assigned identity
`(payer 0.0.2, start 5 s / 7 ns)`, the identities the chunk loop embeds in
the frozen wire bytes are `(payer, start)` and `(payer, start + 10 s)` as
the claim says, but the `_transactionIds` bookkeeping is seeded with the
assigned id and then pushes it again, so `executeAll` assigns chunk 1 the
identity of chunk 0: the list of per-chunk identities used for submission
is `[start, start]`, not strictly increasing, and it contradicts the ids
inside the very bytes being submitted. -/
theorem executeAll_assigns_duplicate_chunk_ids :
    chunkCount 6000 CHUNK_SIZE = 2 ∧
    executeAllAssignedIds
        { accountId := { shard := 0, realm := 0, num := 2 },
          validStart := { seconds := 5, nanos := 7 } } 2
      = [{ accountId := { shard := 0, realm := 0, num := 2 },
           validStart := { seconds := 5, nanos := 7 } },
         { accountId := { shard := 0, realm := 0, num := 2 },
           validStart := { seconds := 5, nanos := 7 } }] ∧
    embeddedChunkIds
        { accountId := { shard := 0, realm := 0, num := 2 },
          validStart := { seconds := 5, nanos := 7 } } 2
      = [{ accountId := { shard := 0, realm := 0, num := 2 },
           validStart := { seconds := 5, nanos := 7 } },
         { accountId := { shard := 0, realm := 0, num := 2 },
           validStart := { seconds := 15, nanos := 7 } }] ∧
    executeAllAssignedIds
        { accountId := { shard := 0, realm := 0, num := 2 },
          validStart := { seconds := 5, nanos := 7 } } 2
      ≠ embeddedChunkIds
        { accountId := { shard := 0, realm := 0, num := 2 },
          validStart := { seconds := 5, nanos := 7 } } 2 := by
  decide

/-- Claim C4, counterexample: with a five-byte payload and `maxChunks`
configured to 0, `ceil(5 / 4096) = 1 > 0`, so the claim requires freezing
to fail with the payload-too-large error, but the short-contents early
return of `freezeWith` skips the check and freezing succeeds. -/
theorem freezeChunkCheck_skips_check_on_short_contents :
    freezeChunkCheck 5 0 CHUNK_SIZE = Except.ok 1 ∧
    chunkCount 5 CHUNK_SIZE = 1 ∧
    0 < chunkCount 5 CHUNK_SIZE := by
  decide

/-- Claim C4, amended: for a payload of length `L`, chunk size `C > 0` and
configured maximum `M ≥ 1`, freezing fails with the payload-too-large
error iff `ceil(L / C) > M`; when the chunked path is taken (`L ≥ C`) the
computed chunk count is exactly `ceil(L / C)`, where `chunkCount` is the
ceiling of `L / C` in the sense of the two bounds proved in the last two
conjuncts. -/
theorem freezeChunkCheck_spec (L M C : Nat) (hC : 0 < C) (hM : 1 ≤ M) :
    (freezeChunkCheck L M C = Except.error SdkError.payloadTooLarge ↔ M < chunkCount L C) ∧
    (C ≤ L → freezeChunkCheck L M C
        = if M < chunkCount L C then Except.error SdkError.payloadTooLarge
          else Except.ok (chunkCount L C)) ∧
    L ≤ chunkCount L C * C ∧
    (∀ m : Nat, L ≤ m * C → chunkCount L C ≤ m) := by
  refine ⟨?_, ?_, chunkCount_mul_ge L C hC, fun m hm => chunkCount_le_of_le_mul L C m hC hm⟩
  · simp only [freezeChunkCheck]
    split_ifs with h h2
    · have h1 : chunkCount L C ≤ 1 := chunkCount_le_of_le_mul L C 1 hC (by omega)
      simp only [reduceCtorEq, false_iff]
      omega
    · simp only [true_iff]
      exact h2
    · simp only [reduceCtorEq, false_iff]
      omega
  · intro hCL
    simp only [freezeChunkCheck]
    have h : ¬(L < C) := by omega
    rw [if_neg h]

/-- Claim C4, witness: at `L = 8192`, `M = 1`, `C = 4096` the hypotheses
hold and the amended statement evaluates. -/
theorem freezeChunkCheck_spec_witness :
    0 < 4096 ∧ 1 ≤ 1 ∧
    ((freezeChunkCheck 8192 1 4096 = Except.error SdkError.payloadTooLarge ↔
        1 < chunkCount 8192 4096) ∧
      (4096 ≤ 8192 → freezeChunkCheck 8192 1 4096
          = if 1 < chunkCount 8192 4096 then Except.error SdkError.payloadTooLarge
            else Except.ok (chunkCount 8192 4096)) ∧
      8192 ≤ chunkCount 8192 4096 * 4096 ∧
      (∀ m : Nat, 8192 ≤ m * 4096 → chunkCount 8192 4096 ≤ m)) :=
  ⟨by decide, by decide, freezeChunkCheck_spec 8192 1 4096 (by decide) (by decide)⟩

/-- Claim C5: for a payload `contents` and chunk size `C > 0`, the bytes
`_makeTransactionData` places in chunk `i` (whose `_startIndex` is
`i * C`) are exactly the range `[i*C, min((i+1)*C, L))` of the original
contents, and concatenating the `ceil(L / C)` chunk slices in order
reconstructs the payload bit for bit. -/
theorem makeTransactionData_chunks_spec (contents : List Nat) (C : Nat) (hC : 0 < C) :
    (∀ i : Nat, makeTransactionDataContents contents (i * C) C
        = (contents.take (min ((i + 1) * C) contents.length)).drop (i * C)) ∧
    ((List.range (chunkCount contents.length C)).map
        (fun i => makeTransactionDataContents contents (i * C) C)).flatten = contents := by
  constructor
  · intro i
    rw [makeTransactionDataContents_eq_take, List.drop_take]
    have hm : (i + 1) * C = i * C + C := by ring
    by_cases h : (i + 1) * C ≤ contents.length
    · rw [min_eq_left h]
      congr 1
      omega
    · rw [min_eq_right (by omega)]
      rw [List.take_of_length_le (by simp only [List.length_drop]; omega),
        List.take_of_length_le (by simp only [List.length_drop]; omega)]
  · have hrw : (List.range (chunkCount contents.length C)).map
        (fun i => makeTransactionDataContents contents (i * C) C)
      = (List.range (chunkCount contents.length C)).map
        (fun i => (contents.drop (i * C)).take C) := by
      apply List.map_congr_left
      intro i _
      exact makeTransactionDataContents_eq_take contents (i * C) C
    rw [hrw, flatten_chunk_slices,
      List.take_of_length_le (chunkCount_mul_ge contents.length C hC)]

/-- Claim C5, witness: a five-byte payload with chunk size 2. -/
theorem makeTransactionData_chunks_spec_witness :
    0 < 2 ∧
    ((∀ i : Nat, makeTransactionDataContents [10, 11, 12, 13, 14] (i * 2) 2
        = (List.take (min ((i + 1) * 2) (List.length [10, 11, 12, 13, 14]))
            [10, 11, 12, 13, 14]).drop (i * 2)) ∧
      ((List.range (chunkCount (List.length [10, 11, 12, 13, 14]) 2)).map
          (fun i => makeTransactionDataContents [10, 11, 12, 13, 14] (i * 2) 2)).flatten
        = [10, 11, 12, 13, 14]) :=
  ⟨by decide, makeTransactionData_chunks_spec [10, 11, 12, 13, 14] 2 (by decide)⟩

/-- Running the `executeAll` loop through `k` fully confirmed chunk groups
prepends the canonical dispatch/receipt interleaving to the trace and the
`k` responses to a later success, while a later failure still discards
them. -/
theorem executeAllFrom_confirmed_shift {R : Type} (disp : Nat → Except SdkError R)
    (rcpt : Nat → Except SdkError Unit) (resp : Nat → R) (k : Nat) :
    ∀ (i rem : Nat),
      (∀ j ∈ List.range k, disp (i + j) = Except.ok (resp (i + j))) →
      (∀ j ∈ List.range k, rcpt (i + j) = Except.ok ()) →
      executeAllFrom disp rcpt i (k + rem)
        = ((List.range' i k).flatMap
              (fun j => [ChunkEvent.dispatched j, ChunkEvent.receiptConfirmed j])
            ++ (executeAllFrom disp rcpt (i + k) rem).1,
          match (executeAllFrom disp rcpt (i + k) rem).2 with
          | Except.ok rs => Except.ok ((List.range' i k).map resp ++ rs)
          | Except.error e => Except.error e) := by
  induction k with
  | zero =>
      intro i rem _ _
      simp only [Nat.zero_add, List.range', List.flatMap_nil, List.nil_append,
        List.map_nil, Nat.add_zero]
      cases hres : (executeAllFrom disp rcpt i rem).2 with
      | ok rs => simp [Prod.ext_iff, hres]
      | error e => simp [Prod.ext_iff, hres]
  | succ k ih =>
      intro i rem hd hr
      have hd0 : disp i = Except.ok (resp i) := by
        have := hd 0 (by simp)
        simpa using this
      have hr0 : rcpt i = Except.ok () := by
        have := hr 0 (by simp)
        simpa using this
      have hstep : k + 1 + rem = (k + rem) + 1 := by omega
      rw [hstep]
      show executeAllFrom disp rcpt i ((k + rem) + 1) = _
      rw [executeAllFrom, hd0, hr0]
      have ihi := ih (i + 1) rem
        (fun j hj => by
          have := hd (j + 1) (by simp at hj ⊢; omega)
          simpa [Nat.add_assoc, Nat.add_comm 1 j] using this)
        (fun j hj => by
          have := hr (j + 1) (by simp at hj ⊢; omega)
          simpa [Nat.add_assoc, Nat.add_comm 1 j] using this)
      rw [ihi]
      have harith : i + 1 + k = i + (k + 1) := by omega
      rw [List.range'_succ]
      simp only [List.flatMap_cons, List.map_cons, harith]
      cases hres : (executeAllFrom disp rcpt (i + (k + 1)) rem).2 with
      | ok rs => simp [Prod.ext_iff, hres]
      | error e => simp [Prod.ext_iff, hres]

/-- Claim C2, amended: `executeAll` dispatches the chunk groups strictly
in order, confirming each group's receipt before dispatching the next;
on the first group whose dispatch or receipt confirmation fails it stops:
the call settles with the triggering error alone (the outcomes already
collected for the confirmed prefix are discarded, not returned), and no
later group is ever dispatched — witness the trace, which ends at the
failing group's dispatch. -/
theorem executeAll_aborts_on_first_failure {R : Type} (disp : Nat → Except SdkError R)
    (rcpt : Nat → Except SdkError Unit) (resp : Nat → R) (k n : Nat) (e : SdkError)
    (hd : ∀ j ∈ List.range k, disp j = Except.ok (resp j))
    (hr : ∀ j ∈ List.range k, rcpt j = Except.ok ())
    (hfail : disp k = Except.error e ∨ ((∃ r, disp k = Except.ok r) ∧ rcpt k = Except.error e))
    (hk : k < n) :
    executeAllFrom disp rcpt 0 n
      = ((List.range k).flatMap
            (fun j => [ChunkEvent.dispatched j, ChunkEvent.receiptConfirmed j])
          ++ [ChunkEvent.dispatched k],
         Except.error e) := by
  obtain ⟨m, hm⟩ : ∃ m, n = k + (m + 1) := ⟨n - k - 1, by omega⟩
  subst hm
  rw [executeAllFrom_confirmed_shift disp rcpt resp k 0 (m + 1)
    (fun j hj => by simpa using hd j hj) (fun j hj => by simpa using hr j hj)]
  have htail : executeAllFrom disp rcpt (0 + k) (m + 1)
      = ([ChunkEvent.dispatched k], Except.error e) := by
    rcases hfail with hfe | ⟨⟨r, hok⟩, hre⟩
    · simp only [Nat.zero_add]
      rw [executeAllFrom, hfe]
    · simp only [Nat.zero_add]
      rw [executeAllFrom, hok, hre]
  rw [htail]
  simp [List.range_eq_range']

/-- Claim C2, counterexample: three chunk groups whose second dispatch is
rejected.  The code settles with the bare error and delivers no outcomes
at all, while the claim (and the spec's own scenario) promises the
confirmed prefix — here the outcome of chunk 0 — together with the error;
the trace also shows chunk 2 was never dispatched. -/
theorem executeAll_discards_confirmed_prefix :
    executeAllFrom
        (fun i => if i = 1 then Except.error (SdkError.hederaError 7) else Except.ok i)
        (fun _ => Except.ok ()) 0 3
      = ([ChunkEvent.dispatched 0, ChunkEvent.receiptConfirmed 0, ChunkEvent.dispatched 1],
         Except.error (SdkError.hederaError 7)) ∧
    executeAllPerSpec
        (fun i => if i = 1 then Except.error (SdkError.hederaError 7) else Except.ok i)
        (fun _ => Except.ok ()) 0 3
      = ([0], some (SdkError.hederaError 7)) ∧
    deliveredOutcomes
        (executeAllFrom
          (fun i => if i = 1 then Except.error (SdkError.hederaError 7) else Except.ok i)
          (fun _ => Except.ok ()) 0 3).2
      ≠ (executeAllPerSpec
          (fun i => if i = 1 then Except.error (SdkError.hederaError 7) else Except.ok i)
          (fun _ => Except.ok ()) 0 3).1 := by
  decide

/-- Claim C2, witness: the amended theorem applied to the three-group run
with the failing second dispatch. -/
theorem executeAll_aborts_on_first_failure_witness :
    (∀ j ∈ List.range 1,
      (fun i => if i = 1 then Except.error (SdkError.hederaError 7) else Except.ok i) j
        = Except.ok ((fun i => i) j)) ∧
    (∀ j ∈ List.range 1,
      (fun (_ : Nat) => (Except.ok () : Except SdkError Unit)) j = Except.ok ()) ∧
    ((fun i => if i = 1 then Except.error (SdkError.hederaError 7) else Except.ok i) 1
        = Except.error (SdkError.hederaError 7) ∨
      ((∃ r, (fun i => if i = 1 then Except.error (SdkError.hederaError 7) else Except.ok i) 1
          = Except.ok r) ∧
        (fun (_ : Nat) => (Except.ok () : Except SdkError Unit)) 1
          = Except.error (SdkError.hederaError 7))) ∧
    1 < 3 ∧
    executeAllFrom
        (fun i => if i = 1 then Except.error (SdkError.hederaError 7) else Except.ok i)
        (fun _ => Except.ok ()) 0 3
      = ((List.range 1).flatMap
            (fun j => [ChunkEvent.dispatched j, ChunkEvent.receiptConfirmed j])
          ++ [ChunkEvent.dispatched 1],
         Except.error (SdkError.hederaError 7)) :=
  ⟨by decide, by decide, Or.inl (by decide), by decide,
    executeAll_aborts_on_first_failure
      (fun i => if i = 1 then Except.error (SdkError.hederaError 7) else Except.ok i)
      (fun _ => Except.ok ()) (fun i => i) 1 3 (SdkError.hederaError 7)
      (by decide) (by decide) (Or.inl (by decide)) (by decide)⟩

/-- With attempt 0 the backoff is zero: `2 ^ 0 - 1 = 0`. -/
theorem backoffDelayMs_attempt_zero (rand : Nat → ℚ) : backoffDelayMs rand 0 = 0 := by
  simp [backoffDelayMs]

/-- Skipping `k` pending polls that stay inside the deadline advances the
polling loop to attempt `a + k`, consuming `k` fuel. -/
theorem waitLoop_skip_pending (polls : Nat → Nat) (rand : Nat → ℚ) (nowAt : Nat → Int)
    (d : Int) (k : Nat) :
    ∀ (a fuel : Nat),
      (∀ j ∈ List.range k, polls (a + j) = UNKNOWN_CODE ∨ polls (a + j) = OK_CODE) →
      (∀ j ∈ List.range k, nowAt (a + j) + backoffDelayMs rand (a + j) ≤ d) →
      waitForReceiptLoop polls rand nowAt d (k + fuel) a
        = waitForReceiptLoop polls rand nowAt d fuel (a + k) := by
  induction k with
  | zero =>
      intro a fuel _ _
      simp
  | succ k ih =>
      intro a fuel hp ht
      have hp0 : polls a = UNKNOWN_CODE ∨ polls a = OK_CODE := by
        simpa using hp 0 (by simp)
      have ht0 : nowAt a + backoffDelayMs rand a ≤ d := by
        simpa using ht 0 (by simp)
      have hstep : k + 1 + fuel = (k + fuel) + 1 := by omega
      rw [hstep]
      simp only [waitForReceiptLoop]
      rw [if_pos hp0, if_neg (not_lt.mpr ht0)]
      have ihv := ih (a + 1) fuel
        (fun j hj => by
          have := hp (j + 1) (by simp at hj ⊢; omega)
          simpa [Nat.add_assoc, Nat.add_comm 1 j] using this)
        (fun j hj => by
          have := ht (j + 1) (by simp at hj ⊢; omega)
          simpa [Nat.add_assoc, Nat.add_comm 1 j] using this)
      rw [ihv]
      congr 1
      omega

/-- Whenever the polling loop exits, the number of polls performed exceeds
the attempt index it started from. -/
theorem waitLoop_exit_gt (polls : Nat → Nat) (rand : Nat → ℚ) (nowAt : Nat → Int) (d : Int) :
    ∀ (fuel a c : Nat) (res : Except SdkError Nat),
      waitForReceiptLoop polls rand nowAt d fuel a = some (c, res) → a < c := by
  intro fuel
  induction fuel with
  | zero =>
      intro a c res h
      simp [waitForReceiptLoop] at h
  | succ fuel ih =>
      intro a c res h
      simp only [waitForReceiptLoop] at h
      by_cases hp : polls a = UNKNOWN_CODE ∨ polls a = OK_CODE
      · rw [if_pos hp] at h
        by_cases htm : d < nowAt a + backoffDelayMs rand a
        · rw [if_pos htm] at h
          simp at h
          omega
        · rw [if_neg htm] at h
          have := ih (a + 1) c res h
          omega
      · rw [if_neg hp] at h
        by_cases hs : polls a ≠ SUCCESS_CODE
        · rw [if_pos hs] at h
          simp at h
          omega
        · rw [if_neg hs] at h
          simp at h
          omega

/-- Claim C7: when the first `k` polls are pending (`UNKNOWN`/`OK`) and do
not time out, and poll `k` returns a status `s` that is neither pending
code, the resolver exits after exactly `k + 1` polls — zero additional
polls — returning the receipt immediately when `s` is `SUCCESS` and
failing immediately with the `HederaError` carrying `s` otherwise. -/
theorem waitForReceipt_terminal_status_immediate (polls : Nat → Nat) (rand : Nat → ℚ)
    (nowAt : Nat → Int) (d : Int) (k fuel s : Nat)
    (hpend : ∀ j ∈ List.range k, polls j = UNKNOWN_CODE ∨ polls j = OK_CODE)
    (hok : ∀ j ∈ List.range k, nowAt j + backoffDelayMs rand j ≤ d)
    (hs : polls k = s) (hsu : s ≠ UNKNOWN_CODE) (hso : s ≠ OK_CODE) (hfuel : k < fuel) :
    waitForReceiptLoop polls rand nowAt d fuel 0
      = some (k + 1,
          if s = SUCCESS_CODE then Except.ok s
          else Except.error (SdkError.hederaError s)) := by
  obtain ⟨m, hm⟩ : ∃ m, fuel = k + (m + 1) := ⟨fuel - k - 1, by omega⟩
  subst hm
  rw [waitLoop_skip_pending polls rand nowAt d k 0 (m + 1)
    (fun j hj => by simpa using hpend j hj) (fun j hj => by simpa using hok j hj)]
  simp only [Nat.zero_add, waitForReceiptLoop]
  rw [if_neg (by rw [hs]; tauto)]
  by_cases hsc : s = SUCCESS_CODE
  · rw [if_neg (by rw [hs]; simp [hsc]), if_pos hsc, hs]
  · rw [if_pos (by rw [hs]; exact hsc), if_neg hsc]
    rw [hs]

/-- Claim C7, witness: a receipt source that answers a terminal failure
code (30) on the very first poll; the resolver fails at once after one
poll. -/
theorem waitForReceipt_terminal_status_immediate_witness :
    (∀ j ∈ List.range 0,
      (fun (_ : Nat) => 30) j = UNKNOWN_CODE ∨ (fun (_ : Nat) => 30) j = OK_CODE) ∧
    (∀ j ∈ List.range 0,
      (fun (_ : Nat) => (0 : Int)) j + backoffDelayMs (fun _ => 0) j ≤ (0 : Int)) ∧
    (fun (_ : Nat) => 30) 0 = 30 ∧ 30 ≠ UNKNOWN_CODE ∧ 30 ≠ OK_CODE ∧ 0 < 1 ∧
    waitForReceiptLoop (fun _ => 30) (fun _ => 0) (fun _ => 0) 0 1 0
      = some (0 + 1,
          if 30 = SUCCESS_CODE then Except.ok 30
          else Except.error (SdkError.hederaError 30)) :=
  ⟨by decide, by decide, by decide, by decide, by decide, by decide,
    waitForReceipt_terminal_status_immediate (fun _ => 30) (fun _ => 0) (fun _ => 0) 0 0 1 30
      (by decide) (by decide) (by decide) (by decide) (by decide) (by decide)⟩

/-- Claim C3, counterexample: for a transaction whose configured validity
window is 30 seconds (valid start at the epoch), the claim puts the
polling deadline at `start + 30 * 1000` milliseconds, but
`_waitForReceipt` hard-codes `validStartMs + 120000` and never consults
`_validDurationSeconds`. -/
theorem waitForReceiptDeadline_ignores_validity_window :
    (fun (tx : Transaction) =>
        waitForReceiptDeadline { seconds := 0, nanos := 0 }
          ≠ timestampToMs { seconds := 0, nanos := 0 } + tx.validDurationSeconds * 1000)
      { node := { shard := 0, realm := 0, num := 3 },
        inner := emptyWire,
        txnId := { accountID := some { shard := 0, realm := 0, num := 2 },
                   transactionValidStart := some { seconds := 0, nanos := 0 } },
        validDurationSeconds := 30,
        method := RpcMethod.cryptoTransfer } ∧
    waitForReceiptDeadline { seconds := 0, nanos := 0 } = 120000 := by
  decide

/-- Claim C3, amended: the polling deadline is the valid-start instant
plus the fixed 120000 milliseconds (the protocol's maximum validity
window), regardless of the transaction's configured validity-window
seconds; while the status stays pending the next backoff is
`floor(base * random * (2 ^ attempt - 1))`, and the resolver fails with
the consensus-timeout error at a pending attempt exactly when the current
time plus that backoff exceeds the deadline. -/
theorem waitForReceipt_timeout_characterization (start : Timestamp) (polls : Nat → Nat)
    (rand : Nat → ℚ) (nowAt : Nat → Int) (k fuel : Nat)
    (hpend : ∀ j ∈ List.range (k + 1), polls j = UNKNOWN_CODE ∨ polls j = OK_CODE)
    (hok : ∀ j ∈ List.range k, nowAt j + backoffDelayMs rand j ≤ waitForReceiptDeadline start)
    (hfuel : k < fuel) :
    (waitForReceiptLoop polls rand nowAt (waitForReceiptDeadline start) fuel 0
        = some (k + 1, Except.error SdkError.consensusTimeout)
      ↔ waitForReceiptDeadline start < nowAt k + backoffDelayMs rand k) ∧
    waitForReceiptDeadline start = timestampToMs start + 120000 ∧
    backoffDelayMs rand k = ⌊(receiptRetryDelayMs : ℚ) * rand k * (2 ^ k - 1)⌋ := by
  refine ⟨?_, rfl, rfl⟩
  obtain ⟨m, hm⟩ : ∃ m, fuel = k + (m + 1) := ⟨fuel - k - 1, by omega⟩
  subst hm
  rw [waitLoop_skip_pending polls rand nowAt _ k 0 (m + 1)
    (fun j hj => by
      have := hpend j (by simp at hj ⊢; omega)
      simpa using this)
    (fun j hj => by simpa using hok j hj)]
  simp only [Nat.zero_add, waitForReceiptLoop]
  have hpk : polls k = UNKNOWN_CODE ∨ polls k = OK_CODE := hpend k (by simp)
  rw [if_pos hpk]
  constructor
  · intro h
    by_contra hnot
    rw [if_neg hnot] at h
    have := waitLoop_exit_gt polls rand nowAt (waitForReceiptDeadline start)
      m (k + 1) (k + 1) (Except.error SdkError.consensusTimeout) h
    omega
  · intro h
    rw [if_pos h]

/-- Claim C3, witness: polls always pending, zero random draw, clock one
millisecond past the deadline at the first pending attempt — the resolver
times out after that single poll. -/
theorem waitForReceipt_timeout_characterization_witness :
    (∀ j ∈ List.range (0 + 1),
      (fun (_ : Nat) => 21) j = UNKNOWN_CODE ∨ (fun (_ : Nat) => 21) j = OK_CODE) ∧
    (∀ j ∈ List.range 0,
      (fun (_ : Nat) => (120001 : Int)) j + backoffDelayMs (fun _ => 0) j
        ≤ waitForReceiptDeadline { seconds := 0, nanos := 0 }) ∧
    0 < 1 ∧
    ((waitForReceiptLoop (fun _ => 21) (fun _ => 0) (fun _ => (120001 : Int))
          (waitForReceiptDeadline { seconds := 0, nanos := 0 }) 1 0
        = some (0 + 1, Except.error SdkError.consensusTimeout)
      ↔ waitForReceiptDeadline { seconds := 0, nanos := 0 }
          < (fun (_ : Nat) => (120001 : Int)) 0 + backoffDelayMs (fun _ => 0) 0) ∧
    waitForReceiptDeadline { seconds := 0, nanos := 0 }
      = timestampToMs { seconds := 0, nanos := 0 } + 120000 ∧
    backoffDelayMs (fun _ => 0) 0
      = ⌊(receiptRetryDelayMs : ℚ) * (fun (_ : Nat) => (0 : ℚ)) 0 * (2 ^ 0 - 1)⌋) :=
  ⟨by decide, by decide, by decide,
    waitForReceipt_timeout_characterization { seconds := 0, nanos := 0 }
      (fun _ => 21) (fun _ => 0) (fun _ => (120001 : Int)) 0 1
      (by decide) (by decide) (by decide)⟩

/-- Freezing always leaves the transaction frozen: every successful path
of `freezeWithModel` marks the state. -/
theorem freezeWithModel_frozen (client : ClientInfo) (tx t : FileAppendState)
    (h : freezeWithModel client tx = Except.ok t) : t.frozen = true := by
  simp only [freezeWithModel] at h
  split at h
  · simp at h
  · split at h
    · cases h
      rfl
    · split at h
      · cases h
        rfl
      · split at h
        · simp at h
        · cases h
          rfl

/-- Claim C6, amended: every payload-mutating setter (`setFileId`,
`setContents`, `setMaxChunks`) fails once the transaction is frozen, but
`executeAll` invoked before freezing does not fail with a not-frozen
error: it first freezes the transaction with the client (propagating any
freezing error) and then runs the chunk loop exactly as it would on the
already-frozen transaction, while on a frozen transaction it runs the
chunk loop directly. -/
theorem frozen_guard_and_implicit_freeze (tx : FileAppendState) (fid : EntityId)
    (c : List Nat) (m : Nat) (hfrozen : tx.frozen = true) :
    setFileId tx fid = Except.error SdkError.alreadyFrozen ∧
    setContents tx c = Except.error SdkError.alreadyFrozen ∧
    setMaxChunks tx m = Except.error SdkError.alreadyFrozen ∧
    (∀ (R : Type) (client : ClientInfo) (disp : Nat → Except SdkError R)
        (rcpt : Nat → Except SdkError Unit) (tx' : FileAppendState),
      tx'.frozen = false →
      executeAllModel client disp rcpt tx'
        = match freezeWithModel client tx' with
          | Except.error e => Except.error e
          | Except.ok t => executeAllModel client disp rcpt t) ∧
    (∀ (R : Type) (client : ClientInfo) (disp : Nat → Except SdkError R)
        (rcpt : Nat → Except SdkError Unit) (tx' : FileAppendState),
      tx'.frozen = true →
      executeAllModel client disp rcpt tx' = (executeAllFrom disp rcpt 0 tx'.groupCount).2) := by
  refine ⟨?_, ?_, ?_, ?_, ?_⟩
  · simp [setFileId, requireNotFrozen, hfrozen]
  · simp [setContents, requireNotFrozen, hfrozen]
  · simp [setMaxChunks, requireNotFrozen, hfrozen]
  · intro R client disp rcpt tx' hf
    unfold executeAllModel
    simp only [hf, Bool.false_eq_true, if_false]
    cases hfz : freezeWithModel client tx' with
    | error e => simp
    | ok t => simp [freezeWithModel_frozen client tx' t hfz]
  · intro R client disp rcpt tx' hf
    unfold executeAllModel
    simp only [hf, if_true]

/-- Claim C6, counterexample: `executeAll` on an unfrozen transaction
(small contents, operator id available from the client) does not fail
with a not-frozen error — it freezes the transaction itself and runs the
single chunk group to success. -/
theorem executeAll_unfrozen_succeeds :
    executeAllModel
        { operatorTransactionId :=
            some { accountId := { shard := 0, realm := 0, num := 2 },
                   validStart := { seconds := 5, nanos := 7 } },
          nodeCount := 1 }
        (fun _ => Except.ok (0 : Nat)) (fun _ => Except.ok ())
        { frozen := false, fileId := some { shard := 0, realm := 0, num := 5 },
          contents := some [1, 2, 3], maxChunks := 10,
          transactionId := none, transactionIds := [], groupCount := 0 }
      = Except.ok [0] := by
  decide

/-- Claim C6, witness: the amended theorem applied to a concrete frozen
transaction and concrete setter arguments. -/
theorem frozen_guard_and_implicit_freeze_witness :
    ({ frozen := true, fileId := some { shard := 0, realm := 0, num := 5 },
       contents := some [1, 2, 3], maxChunks := 10,
       transactionId := some { accountId := { shard := 0, realm := 0, num := 2 },
                               validStart := { seconds := 5, nanos := 7 } },
       transactionIds := [], groupCount := 1 } : FileAppendState).frozen = true ∧
    (setFileId
        { frozen := true, fileId := some { shard := 0, realm := 0, num := 5 },
          contents := some [1, 2, 3], maxChunks := 10,
          transactionId := some { accountId := { shard := 0, realm := 0, num := 2 },
                                  validStart := { seconds := 5, nanos := 7 } },
          transactionIds := [], groupCount := 1 }
        { shard := 0, realm := 0, num := 9 } = Except.error SdkError.alreadyFrozen ∧
      setContents
        { frozen := true, fileId := some { shard := 0, realm := 0, num := 5 },
          contents := some [1, 2, 3], maxChunks := 10,
          transactionId := some { accountId := { shard := 0, realm := 0, num := 2 },
                                  validStart := { seconds := 5, nanos := 7 } },
          transactionIds := [], groupCount := 1 }
        [4, 5] = Except.error SdkError.alreadyFrozen ∧
      setMaxChunks
        { frozen := true, fileId := some { shard := 0, realm := 0, num := 5 },
          contents := some [1, 2, 3], maxChunks := 10,
          transactionId := some { accountId := { shard := 0, realm := 0, num := 2 },
                                  validStart := { seconds := 5, nanos := 7 } },
          transactionIds := [], groupCount := 1 }
        3 = Except.error SdkError.alreadyFrozen ∧
      (∀ (R : Type) (client : ClientInfo) (disp : Nat → Except SdkError R)
          (rcpt : Nat → Except SdkError Unit) (tx' : FileAppendState),
        tx'.frozen = false →
        executeAllModel client disp rcpt tx'
          = match freezeWithModel client tx' with
            | Except.error e => Except.error e
            | Except.ok t => executeAllModel client disp rcpt t) ∧
      (∀ (R : Type) (client : ClientInfo) (disp : Nat → Except SdkError R)
          (rcpt : Nat → Except SdkError Unit) (tx' : FileAppendState),
        tx'.frozen = true →
        executeAllModel client disp rcpt tx'
          = (executeAllFrom disp rcpt 0 tx'.groupCount).2)) :=
  ⟨by decide,
    frozen_guard_and_implicit_freeze
      { frozen := true, fileId := some { shard := 0, realm := 0, num := 5 },
        contents := some [1, 2, 3], maxChunks := 10,
        transactionId := some { accountId := { shard := 0, realm := 0, num := 2 },
                                validStart := { seconds := 5, nanos := 7 } },
        transactionIds := [], groupCount := 1 }
      { shard := 0, realm := 0, num := 9 } [4, 5] 3 (by decide)⟩

/-- The sized decoder inverts the sized encoder, leaving the remainder. -/
theorem decodeSized_encodeSized (bs rest : List Nat) :
    decodeSized (encodeSized bs ++ rest) = some (bs, rest) := by
  simp [encodeSized, decodeSized, List.take_left, List.drop_left, Nat.le_add_right]

/-- The optional-field decoder inverts the optional-field encoder whenever
the payload decoder inverts the payload encoder. -/
theorem decodeOptionField_encodeOptionField {α : Type} (f : α → List Nat)
    (g : List Nat → Option (α × List Nat))
    (hfg : ∀ (a : α) (rest : List Nat), g (f a ++ rest) = some (a, rest))
    (o : Option α) (rest : List Nat) :
    decodeOptionField g (encodeOptionField f o ++ rest) = some (o, rest) := by
  cases o with
  | none => rfl
  | some a => simp [encodeOptionField, decodeOptionField, hfg]

/-- The entity-id decoder inverts its encoder. -/
theorem decodeEntityId_encodeEntityId (e : EntityId) (rest : List Nat) :
    decodeEntityId (encodeEntityId e ++ rest) = some (e, rest) := rfl

/-- The timestamp decoder inverts its encoder. -/
theorem decodeTimestamp_encodeTimestamp (t : Timestamp) (rest : List Nat) :
    decodeTimestamp (encodeTimestamp t ++ rest) = some (t, rest) := rfl

/-- The numeric-field decoder inverts its encoder. -/
theorem decodeNatField_encodeNatField (n : Nat) (rest : List Nat) :
    decodeNatField (encodeNatField n ++ rest) = some (n, rest) := rfl

/-- The transaction-id decoder inverts its encoder. -/
theorem decodeProtoTxnId_encodeProtoTxnId (tid : ProtoTransactionID) (rest : List Nat) :
    decodeProtoTxnId (encodeProtoTxnId tid ++ rest) = some (tid, rest) := by
  simp only [encodeProtoTxnId, List.append_assoc, decodeProtoTxnId,
    decodeOptionField_encodeOptionField encodeEntityId decodeEntityId
      decodeEntityId_encodeEntityId,
    decodeOptionField_encodeOptionField encodeTimestamp decodeTimestamp
      decodeTimestamp_encodeTimestamp]

/-- The tag table is injective: decoding the tag of a case gives the case
back. -/
theorem dataCaseOfTag_dataCaseTag (c : DataCase) : dataCaseOfTag (dataCaseTag c) = c := by
  cases c <;> rfl

/-- The signature-pair list decoder inverts the flattened encoding. -/
theorem decodeSigPairs_encode (l : List SignaturePair) (rest : List Nat) :
    decodeSigPairs l.length ((l.map encodeSigPair).flatten ++ rest) = some (l, rest) := by
  induction l generalizing rest with
  | nil => rfl
  | cons p ps ih =>
      simp only [List.map_cons, List.flatten_cons, List.length_cons, encodeSigPair,
        List.append_assoc, decodeSigPairs, decodeSized_encodeSized, ih]

/-- The wire decoder inverts the wire encoder. -/
theorem decodeWire_encodeWire (w : TransactionWire) : decodeWire (encodeWire w) = some w := by
  have h : encodeWire w
      = encodeSized w.bodyBytes ++ (w.sigMap.length :: (w.sigMap.map encodeSigPair).flatten) :=
    rfl
  rw [decodeWire, h, decodeSized_encodeSized]
  simp only []
  have h2 := decodeSigPairs_encode w.sigMap []
  rw [List.append_nil] at h2
  rw [h2]

/-- The body decoder inverts the body encoder. -/
theorem decodeBody_encodeBody (b : TransactionBody) : decodeBody (encodeBody b) = some b := by
  have h : encodeBody b
      = encodeOptionField encodeEntityId b.nodeAccountID ++
          (encodeOptionField encodeProtoTxnId b.transactionID ++
            (encodeOptionField encodeNatField b.transactionValidDuration ++
              [dataCaseTag b.dataCase])) := by
    simp [encodeBody, List.append_assoc]
  rw [decodeBody, h]
  simp only [decodeOptionField_encodeOptionField encodeEntityId decodeEntityId
      decodeEntityId_encodeEntityId,
    decodeOptionField_encodeOptionField encodeProtoTxnId decodeProtoTxnId
      decodeProtoTxnId_encodeProtoTxnId,
    decodeOptionField_encodeOptionField encodeNatField decodeNatField
      decodeNatField_encodeNatField,
    dataCaseOfTag_dataCaseTag]

/-- Claim C8: for a frozen transaction whose body bytes encode a body with
the node account, transaction id and valid duration present and a
recognized operation tag, `fromBytes (toBytes tx)` succeeds and reproduces
the node identity, the transaction identity and the validity-window
seconds exactly (indeed the whole transaction, signature map included). -/
theorem fromBytes_toBytes_roundtrip (b : TransactionBody) (node : EntityId)
    (tid : ProtoTransactionID) (dur : Nat) (m : RpcMethod) (sigs : List SignaturePair)
    (hn : b.nodeAccountID = some node) (ht : b.transactionID = some tid)
    (hd : b.transactionValidDuration = some dur)
    (hm : methodFromTxn b.dataCase = Except.ok m) :
    fromBytesModel (toBytesModel
        { node := node, inner := { bodyBytes := encodeBody b, sigMap := sigs },
          txnId := tid, validDurationSeconds := dur, method := m })
      = Except.ok
          { node := node, inner := { bodyBytes := encodeBody b, sigMap := sigs },
            txnId := tid, validDurationSeconds := dur, method := m } := by
  have hw := decodeWire_encodeWire { bodyBytes := encodeBody b, sigMap := sigs }
  simp only [toBytesModel, fromBytesModel, hw, decodeBody_encodeBody, hn, ht, hd, hm]

/-- Claim C8, witness: the round-trip theorem applied to the concrete
frozen transaction `c8Tx`, whose body bytes encode `c8Body`. -/
theorem fromBytes_toBytes_roundtrip_witness :
    c8Body.nodeAccountID = some c8Tx.node ∧
    c8Body.transactionID = some c8Tx.txnId ∧
    c8Body.transactionValidDuration = some c8Tx.validDurationSeconds ∧
    methodFromTxn c8Body.dataCase = Except.ok c8Tx.method ∧
    fromBytesModel (toBytesModel c8Tx) = Except.ok c8Tx :=
  ⟨rfl, rfl, rfl, rfl,
    fromBytes_toBytes_roundtrip c8Body c8Tx.node c8Tx.txnId c8Tx.validDurationSeconds
      c8Tx.method c8Tx.inner.sigMap rfl rfl rfl rfl⟩

/-- Claim C9: `sign`/`signWith` (both funnel through `_addSignature`)
leave the frozen body bytes, the node identity, the transaction identity
and the validity duration untouched; each call appends exactly one
(signature, public-key) pair at the end of the signature map, so earlier
pairs are neither removed nor altered and the map grows by one. -/
theorem sign_preserves_frozen_bytes (tx : Transaction) (signer : List Nat → List Nat)
    (pub : List Nat) (p : SignaturePair) :
    (signModel tx signer pub).inner.bodyBytes = tx.inner.bodyBytes ∧
    (signModel tx signer pub).node = tx.node ∧
    (signModel tx signer pub).txnId = tx.txnId ∧
    (signModel tx signer pub).validDurationSeconds = tx.validDurationSeconds ∧
    (signModel tx signer pub).inner.sigMap
      = tx.inner.sigMap
          ++ [{ pubKeyPrefixBytes := pub, ed25519Sig := signer tx.inner.bodyBytes }] ∧
    (addSignatureModel tx p).inner.bodyBytes = tx.inner.bodyBytes ∧
    (addSignatureModel tx p).node = tx.node ∧
    (addSignatureModel tx p).txnId = tx.txnId ∧
    (addSignatureModel tx p).validDurationSeconds = tx.validDurationSeconds ∧
    (addSignatureModel tx p).inner.sigMap = tx.inner.sigMap ++ [p] ∧
    (addSignatureModel tx p).inner.sigMap.length = tx.inner.sigMap.length + 1 := by
  refine ⟨rfl, rfl, rfl, rfl, rfl, rfl, rfl, rfl, rfl, rfl, ?_⟩
  simp [addSignatureModel]

/-- Reading the freshly appended cell gives the cloned value. -/
theorem heapValueAt_concat (h : WireHeap) (x : TransactionWire) :
    heapValueAt (h ++ [x]) h.length = x := by
  simp [heapValueAt, List.getD_eq_getElem?_getD, List.getElem?_concat_length]

/-- Mutating one cell leaves every other cell unchanged. -/
theorem heapValueAt_mutate_ne (h : WireHeap) (r r' : Nat) (v : TransactionWire)
    (hne : r' ≠ r) : heapValueAt (heapMutate h r' v) r = heapValueAt h r := by
  simp [heapValueAt, heapMutate, List.getD_eq_getElem?_getD, List.getElem?_set_ne hne]

/-- Appending a fresh cell leaves the existing cells readable unchanged. -/
theorem heapValueAt_append_lt (h : WireHeap) (x : TransactionWire) (r : Nat)
    (hr : r < h.length) : heapValueAt (h ++ [x]) r = heapValueAt h r := by
  simp [heapValueAt, List.getD_eq_getElem?_getD, List.getElem?_append, hr]

/-- Claim C10: `toProto` deep-copies the wrapped wire message into a fresh
object: the returned reference is distinct from the transaction's own,
the copy carries the same value, and however the caller mutates the
returned object, the transaction's own message, its `toBytes` output and
the value produced by any later `toProto` stay unchanged. -/
theorem toProto_returns_independent_copy (h : WireHeap) (r : Nat) (v : TransactionWire)
    (hr : r < h.length) :
    (toProtoModel h r).2 ≠ r ∧
    heapValueAt (toProtoModel h r).1 (toProtoModel h r).2 = heapValueAt h r ∧
    heapValueAt (heapMutate (toProtoModel h r).1 (toProtoModel h r).2 v) r
      = heapValueAt h r ∧
    toBytesHeap (heapMutate (toProtoModel h r).1 (toProtoModel h r).2 v) r
      = toBytesHeap h r ∧
    heapValueAt (toProtoModel (heapMutate (toProtoModel h r).1 (toProtoModel h r).2 v) r).1
        (toProtoModel (heapMutate (toProtoModel h r).1 (toProtoModel h r).2 v) r).2
      = heapValueAt h r := by
  have h3 : heapValueAt (heapMutate (toProtoModel h r).1 (toProtoModel h r).2 v) r
      = heapValueAt h r := by
    show heapValueAt (heapMutate (h ++ [heapValueAt h r]) h.length v) r = heapValueAt h r
    rw [heapValueAt_mutate_ne _ _ _ _ (by omega), heapValueAt_append_lt _ _ _ hr]
  refine ⟨by simp [toProtoModel]; omega, ?_, h3, ?_, ?_⟩
  · show heapValueAt (h ++ [heapValueAt h r]) h.length = heapValueAt h r
    exact heapValueAt_concat h (heapValueAt h r)
  · show encodeWire (heapValueAt (heapMutate (toProtoModel h r).1 (toProtoModel h r).2 v) r)
      = encodeWire (heapValueAt h r)
    rw [h3]
  · show heapValueAt
        ((heapMutate (toProtoModel h r).1 (toProtoModel h r).2 v)
          ++ [heapValueAt (heapMutate (toProtoModel h r).1 (toProtoModel h r).2 v) r])
        (heapMutate (toProtoModel h r).1 (toProtoModel h r).2 v).length
      = heapValueAt h r
    rw [heapValueAt_concat, h3]

/-- Claim C10, witness: a one-cell heap holding a message with body bytes
`[1, 2, 3]`, mutated through the reference `toProto` returns. -/
theorem toProto_returns_independent_copy_witness :
    0 < ([{ bodyBytes := [1, 2, 3], sigMap := [] }] : WireHeap).length ∧
    ((toProtoModel [{ bodyBytes := [1, 2, 3], sigMap := [] }] 0).2 ≠ 0 ∧
      heapValueAt (toProtoModel [{ bodyBytes := [1, 2, 3], sigMap := [] }] 0).1
          (toProtoModel [{ bodyBytes := [1, 2, 3], sigMap := [] }] 0).2
        = heapValueAt [{ bodyBytes := [1, 2, 3], sigMap := [] }] 0 ∧
      heapValueAt
          (heapMutate (toProtoModel [{ bodyBytes := [1, 2, 3], sigMap := [] }] 0).1
            (toProtoModel [{ bodyBytes := [1, 2, 3], sigMap := [] }] 0).2
            { bodyBytes := [], sigMap := [] }) 0
        = heapValueAt [{ bodyBytes := [1, 2, 3], sigMap := [] }] 0 ∧
      toBytesHeap
          (heapMutate (toProtoModel [{ bodyBytes := [1, 2, 3], sigMap := [] }] 0).1
            (toProtoModel [{ bodyBytes := [1, 2, 3], sigMap := [] }] 0).2
            { bodyBytes := [], sigMap := [] }) 0
        = toBytesHeap [{ bodyBytes := [1, 2, 3], sigMap := [] }] 0 ∧
      heapValueAt
          (toProtoModel
            (heapMutate (toProtoModel [{ bodyBytes := [1, 2, 3], sigMap := [] }] 0).1
              (toProtoModel [{ bodyBytes := [1, 2, 3], sigMap := [] }] 0).2
              { bodyBytes := [], sigMap := [] }) 0).1
          (toProtoModel
            (heapMutate (toProtoModel [{ bodyBytes := [1, 2, 3], sigMap := [] }] 0).1
              (toProtoModel [{ bodyBytes := [1, 2, 3], sigMap := [] }] 0).2
              { bodyBytes := [], sigMap := [] }) 0).2
        = heapValueAt [{ bodyBytes := [1, 2, 3], sigMap := [] }] 0) :=
  ⟨by decide,
    toProto_returns_independent_copy [{ bodyBytes := [1, 2, 3], sigMap := [] }] 0
      { bodyBytes := [], sigMap := [] } (by decide)⟩
